import Mathlib

/-
Verification of the Graal code installer (src/share/vm/graal/graalCodeInstaller.cpp)
against its natural-language specification.

The C++ source is shallowly embedded: each installer function becomes a Lean
function over explicit data; HotSpot `assert`/`guarantee`/`fatal`/
`ShouldNotReachHere` failures become the `TRes.fatal` result; the recursion of
`get_hotspot_value` through virtual-object graphs (which are cyclic via ids) is
driven by a fuel parameter, with `TRes.outOfFuel` marking fuel exhaustion so
that termination facts can be separated from contract-violation facts.
-/

set_option maxRecDepth 4000

/-- Result of an installer operation: normal completion, a fatal contract
violation (assert/guarantee/fatal/ShouldNotReachHere), or fuel exhaustion of
the embedding (never produced by sufficiently large fuel). -/
inductive TRes (α : Type) where
  | ok (a : α)
  | fatal
  | outOfFuel
deriving DecidableEq, Repr

/-- HeapWordSize on the 64-bit platform targeted by this x86-specific file. -/
def HeapWordSize : Nat := 8

/-- BytesPerLong in HotSpot. -/
def BytesPerLong : Nat := 8

/-- BasicType values produced by GraalCompiler::kindToBasicType from the kind
character of a compiler-side value. -/
inductive BType where
  | t_boolean | t_byte | t_short | t_char | t_int | t_float
  | t_long | t_double | t_object | t_array | t_address
deriving DecidableEq, Repr

/-- Location::Type of a HotSpot debug-info location. -/
inductive LocationType where
  | normal | oop | int_in_long | lng | dbl | invalid
deriving DecidableEq, Repr

/-- A HotSpot Location: either in a register or at a stack offset. -/
inductive Location where
  | reg_loc (lt : LocationType) (regNum : Nat)
  | stk_loc (lt : LocationType) (offset : Int)
deriving DecidableEq, Repr

/-- A HotSpot ScopeValue.  ObjectValue instances live in the per-installation
seen-objects pool and are referred to by id (`objRef`), which renders C++
pointer sharing as sharing of the pool entry. -/
inductive ScopeVal where
  | loc (l : Location)
  | constInt (v : Int)
  | constLong (v : Int)
  | constOopWrite (handle : Option Nat)
  | objRef (id : Int)
deriving DecidableEq, Repr

/-- A pooled HotSpot ObjectValue: id, the klass constant built from the type's
java mirror, and the translated field values (filled in after the entry is
registered, exactly as the C++ code mutates `sv->field_values()` after
appending `sv` to `objects`). -/
structure ObjectValue where
  oid : Int
  klassHandle : Option Nat
  field_values : List ScopeVal
deriving DecidableEq, Repr

/-- A compiler-side (Graal) value, as read from the oops passed to
get_hotspot_value.  Virtual objects are referenced by id; their content lives
in a side table so that cyclic object graphs are representable. -/
inductive GValue where
  | illegal
  | register_value (number : Nat) (kind : BType)
  | stack_slot (offset : Int) (addFrameSize : Bool) (kind : BType)
  | constant (kind : BType) (primitive : Int) (objectH : Option Nat)
  | virtual_object (id : Int)
  | monitor_value (owner : GValue) (lockData : GValue) (eliminated : Bool)
deriving DecidableEq, Repr

/-- Content of one VirtualObject oop: its id, the java mirror of its declared
type, whether its klass is Universe::longArrayKlassObj(), and its field
values. -/
structure VirtualObjectDesc where
  vid : Int
  mirror : Nat
  isLongArray : Bool
  fieldValues : List GValue
deriving DecidableEq, Repr

/-- A HotSpot MonitorValue. -/
structure MonitorVal where
  owner : ScopeVal
  lock_data_loc : Location
  eliminated : Bool
deriving DecidableEq, Repr

/-- Reinterpretation *(jint*)&prim of the low 32 bits of a jlong as a signed
32-bit integer. -/
def low32_signed (v : Int) : Int :=
  let w := v.emod (2 ^ 32)
  if w < 2 ^ 31 then w else w - 2 ^ 32

/-- Mutation `sv->field_values()->append(...)` on the pool entry with the given
id (the entry appended by the current get_hotspot_value activation). -/
def updateFieldValues (objects : List ObjectValue) (id : Int) (fs : List ScopeVal) :
    List ObjectValue :=
  objects.map (fun o => if o.oid = id then { o with field_values := fs } else o)

mutual

/-- Shallow embedding of get_hotspot_value.  Returns the grown seen-objects
pool, the primary ScopeValue and the optional second-slot ScopeValue (the
`second` out-parameter, NULL-initialised and set only for wide values). -/
def get_hotspot_value (vtab : List VirtualObjectDesc) (total_frame_size : Nat) :
    Nat → List ObjectValue → GValue → TRes (List ObjectValue × ScopeVal × Option ScopeVal)
  | 0, _, _ => .outOfFuel
  | _ + 1, objects, .illegal =>
      .ok (objects, .loc (.stk_loc .invalid 0), none)
  | _ + 1, objects, .register_value number kind =>
      if number < 16 then
        if kind = .t_int ∨ kind = .t_float ∨ kind = .t_short ∨ kind = .t_char ∨
            kind = .t_boolean ∨ kind = .t_byte ∨ kind = .t_address then
          .ok (objects, .loc (.reg_loc .int_in_long number), none)
        else if kind = .t_long then
          .ok (objects, .loc (.reg_loc .lng number), some (.loc (.reg_loc .lng number)))
        else if kind = .t_object ∨ kind = .t_array then
          .ok (objects, .loc (.reg_loc .oop number), none)
        else
          .fatal
      else
        if kind = .t_float then
          .ok (objects, .loc (.reg_loc .normal number), none)
        else if kind = .t_double then
          .ok (objects, .loc (.reg_loc .dbl number), some (.loc (.reg_loc .dbl number)))
        else
          .fatal
  | _ + 1, objects, .stack_slot offset addFrameSize kind =>
      let lt0 : LocationType :=
        if kind = .t_object ∨ kind = .t_array then .oop else .normal
      let lt : LocationType :=
        if kind = .t_double then .dbl else if kind = .t_long then .lng else lt0
      let off : Int := if addFrameSize then offset + total_frame_size else offset
      .ok (objects, .loc (.stk_loc lt off),
        if kind = .t_double ∨ kind = .t_long then some (.loc (.stk_loc lt off)) else none)
  | _ + 1, objects, .constant kind prim objectH =>
      if kind = .t_int ∨ kind = .t_float ∨ kind = .t_short ∨ kind = .t_char ∨
          kind = .t_boolean ∨ kind = .t_byte then
        .ok (objects, .constInt (low32_signed prim), none)
      else if kind = .t_long ∨ kind = .t_double then
        .ok (objects, .constLong prim, some (.constInt 0))
      else if kind = .t_object then
        match objectH with
        | none => .ok (objects, .constOopWrite none, none)
        | some h => .ok (objects, .constOopWrite (some h), none)
      else if kind = .t_address then
        .ok (objects, .constLong prim, none)
      else
        .fatal
  | fuel + 1, objects, .virtual_object id =>
      match objects.find? (fun o => o.oid = id) with
      | some o => .ok (objects, .objRef o.oid, none)
      | none =>
        match vtab.find? (fun d => d.vid = id) with
        | none => .fatal
        | some d =>
          let sv : ObjectValue := ⟨id, some d.mirror, []⟩
          match get_hotspot_values vtab total_frame_size fuel (objects ++ [sv])
              d.isLongArray d.fieldValues with
          | .ok (objects2, fields) =>
              .ok (updateFieldValues objects2 id fields, .objRef id, none)
          | .fatal => .fatal
          | .outOfFuel => .outOfFuel
  | _ + 1, _, .monitor_value _ _ _ =>
      .fatal

/-- The field-value loop of the VirtualObject branch of get_hotspot_value,
including the long-array zero-filler synthesis (little-endian branch, as this
x86 file is compiled with VM_LITTLE_ENDIAN). -/
def get_hotspot_values (vtab : List VirtualObjectDesc) (total_frame_size : Nat) :
    Nat → List ObjectValue → Bool → List GValue → TRes (List ObjectValue × List ScopeVal)
  | 0, _, _, _ => .outOfFuel
  | _ + 1, objects, _, [] => .ok (objects, [])
  | fuel + 1, objects, isLongArray, v :: vs =>
      match get_hotspot_value vtab total_frame_size fuel objects v with
      | .ok (objects1, value, cur_second0) =>
        let cur_second : Option ScopeVal :=
          if isLongArray ∧ cur_second0 = none then some (.constInt 0) else cur_second0
        match get_hotspot_values vtab total_frame_size fuel objects1 isLongArray vs with
        | .ok (objects2, rest) =>
            .ok (objects2,
              (match cur_second with
               | some s => [s, value]
               | none => [value]) ++ rest)
        | .fatal => .fatal
        | .outOfFuel => .outOfFuel
      | .fatal => .fatal
      | .outOfFuel => .outOfFuel

end

/-- Shallow embedding of get_monitor_value: translates the owner (asserting it
is not wide) and the lock data (asserting it is a wide value whose second slot
is the value itself and that it is a location). -/
def get_monitor_value (vtab : List VirtualObjectDesc) (total_frame_size : Nat)
    (fuel : Nat) (objects : List ObjectValue) (v : GValue) :
    TRes (List ObjectValue × MonitorVal) :=
  match v with
  | .monitor_value owner lockData eliminated =>
    match get_hotspot_value vtab total_frame_size fuel objects owner with
    | .ok (objects1, owner_value, second) =>
      if second ≠ none then .fatal
      else
        match get_hotspot_value vtab total_frame_size fuel objects1 lockData with
        | .ok (objects2, lock_data_value, second2) =>
          if second2 ≠ some lock_data_value then .fatal
          else
            match lock_data_value with
            | .loc l => .ok (objects2, ⟨owner_value, l, eliminated⟩)
            | _ => .fatal
        | .fatal => .fatal
        | .outOfFuel => .outOfFuel
    | .fatal => .fatal
    | .outOfFuel => .outOfFuel
  | _ => .fatal

/-- MapWordBits in the bitset decoder. -/
def MapWordBits : Nat := 64

/-- A GraalBitMap: an array of 64-bit words. -/
structure GBitMap where
  words : List Nat
deriving DecidableEq, Repr

/-- Shallow embedding of is_bit_set, including its index-bound assert. -/
def is_bit_set (bit_map : GBitMap) (i : Nat) : TRes Bool :=
  let extra_idx := i / MapWordBits
  if extra_idx < bit_map.words.length then
    .ok (Nat.testBit (bit_map.words.getD extra_idx 0) (i % MapWordBits))
  else
    .fatal

/-- Shallow embedding of bitmap_size. -/
def bitmap_size (bit_map : GBitMap) : Nat :=
  bit_map.words.length * MapWordBits

/-- The OOP_ALLOWED table: which of the 16 CPU registers may carry an oop
(rsp, rbp and r10 may not). -/
def OOP_ALLOWED : List Bool :=
  [true, true, true, true, false, false, true, true,
   true, true, false, true, true, true, true, true]

/-- NUM_CPU_REGS. -/
def NUM_CPU_REGS : Nat := 16

/-- A VMReg-style root-map location: a CPU register by index or a HotSpot
stack slot (stack2reg index). -/
inductive VMRegName where
  | reg (i : Nat)
  | stack (i : Nat)
deriving DecidableEq, Repr

/-- One entry of a decoded oop map: a location and whether it holds an oop. -/
structure OopMapEntry where
  locName : VMRegName
  is_oop : Bool
deriving DecidableEq, Repr

/-- The decoded HotSpot OopMap. -/
structure OopMap where
  frame_size : Nat
  parameter_count : Nat
  entries : List OopMapEntry
deriving DecidableEq, Repr

/-- The register loop of create_oop_map over a list of register indices,
including the OOP_ALLOWED assert on every set bit. -/
def oop_map_regs (register_map : GBitMap) : List Nat → TRes (List OopMapEntry)
  | [] => .ok []
  | i :: rest =>
    match is_bit_set register_map i with
    | .ok is_oop =>
      if is_oop then
        if OOP_ALLOWED.getD i false then
          match oop_map_regs register_map rest with
          | .ok es => .ok (⟨.reg i, true⟩ :: es)
          | .fatal => .fatal
          | .outOfFuel => .outOfFuel
        else
          .fatal
      else
        match oop_map_regs register_map rest with
        | .ok es => .ok (⟨.reg i, false⟩ :: es)
        | .fatal => .fatal
        | .outOfFuel => .outOfFuel
    | .fatal => .fatal
    | .outOfFuel => .outOfFuel

/-- The frame-slot loop of create_oop_map (stack2reg(i * 2) per bit). -/
def oop_map_frame (frame_map : GBitMap) : List Nat → TRes (List OopMapEntry)
  | [] => .ok []
  | i :: rest =>
    match is_bit_set frame_map i with
    | .ok is_oop =>
      match oop_map_frame frame_map rest with
      | .ok es => .ok (⟨.stack (i * 2), is_oop⟩ :: es)
      | .fatal => .fatal
      | .outOfFuel => .outOfFuel
    | .fatal => .fatal
    | .outOfFuel => .outOfFuel

/-- Shallow embedding of create_oop_map: the register reference map (when
present) is decoded over the 16 CPU registers, then the frame reference map
over all its bits. -/
def create_oop_map (total_frame_size parameter_count : Nat)
    (register_map : Option GBitMap) (frame_map : GBitMap) : TRes OopMap :=
  match register_map with
  | some rm =>
    match oop_map_regs rm (List.range NUM_CPU_REGS) with
    | .ok regs =>
      match oop_map_frame frame_map (List.range (bitmap_size frame_map)) with
      | .ok fr => .ok ⟨total_frame_size, parameter_count, regs ++ fr⟩
      | .fatal => .fatal
      | .outOfFuel => .outOfFuel
    | .fatal => .fatal
    | .outOfFuel => .outOfFuel
  | none =>
    match oop_map_frame frame_map (List.range (bitmap_size frame_map)) with
    | .ok fr => .ok ⟨total_frame_size, parameter_count, fr⟩
    | .fatal => .fatal
    | .outOfFuel => .outOfFuel

/-- One BytecodeFrame of a BytecodePosition chain.  `shouldReexecute` models
the value of Interpreter::bytecode_should_reexecute at the frame's bytecode
(that interpreter table is outside this repository; the field lets us quantify
over all its possible answers). -/
structure FrameData where
  methodId : Nat
  bci : Int
  shouldReexecute : Bool
  duringCall : Bool
  rethrowException : Bool
  numLocals : Nat
  numStack : Nat
  numLocks : Nat
  values : List GValue
  leafGraphId : Int
deriving DecidableEq, Repr

/-- One scope as passed to DebugInformationRecorder::describe_scope. -/
structure ScopeRecord where
  methodId : Nat
  bci : Int
  reexecute : Bool
  rethrow_exception : Bool
  locals : List ScopeVal
  expressions : List ScopeVal
  monitors : List MonitorVal
deriving DecidableEq, Repr

set_option linter.unusedVariables false in
/-- The reexecute computation of record_scope: the sentinel bcis -1 and -2
force false; otherwise the bytecode-derived value is computed and then, since the
frame oop is never NULL at this point, unconditionally overwritten by the
duringCall test. -/
def compute_reexecute (bci : Int) (bytecode_reexecute : Bool) (during_call : Bool) :
    Bool :=
  if bci = -1 ∨ bci = -2 then
    false
  else
    let reexecute := bytecode_reexecute
    let reexecute := during_call == false
    reexecute

/-- The value loop of record_scope: walks the flat value list with a running
index `i`, partitioning into locals / expressions / monitors by the declared
counts, appending the second slot before the primary for wide values, and
skipping (and asserting) the IllegalValue placeholder that must follow a wide
value. -/
def record_scope_values (vtab : List VirtualObjectDesc) (total_frame_size fuel : Nat)
    (local_count expression_count : Nat) :
    Nat → List GValue → List ObjectValue →
    TRes (List ObjectValue × List ScopeVal × List ScopeVal × List MonitorVal)
  | _, [], objects => .ok (objects, [], [], [])
  | i, v :: rest, objects =>
    if i < local_count then
      match get_hotspot_value vtab total_frame_size fuel objects v with
      | .ok (objects1, first, second) =>
        match second with
        | none =>
          match record_scope_values vtab total_frame_size fuel local_count
              expression_count (i + 1) rest objects1 with
          | .ok (o, ls, es, ms) => .ok (o, first :: ls, es, ms)
          | .fatal => .fatal
          | .outOfFuel => .outOfFuel
        | some s2 =>
          match rest with
          | .illegal :: rest2 =>
            match record_scope_values vtab total_frame_size fuel local_count
                expression_count (i + 2) rest2 objects1 with
            | .ok (o, ls, es, ms) => .ok (o, s2 :: first :: ls, es, ms)
            | .fatal => .fatal
            | .outOfFuel => .outOfFuel
          | _ => .fatal
      | .fatal => .fatal
      | .outOfFuel => .outOfFuel
    else if i < local_count + expression_count then
      match get_hotspot_value vtab total_frame_size fuel objects v with
      | .ok (objects1, first, second) =>
        match second with
        | none =>
          match record_scope_values vtab total_frame_size fuel local_count
              expression_count (i + 1) rest objects1 with
          | .ok (o, ls, es, ms) => .ok (o, ls, first :: es, ms)
          | .fatal => .fatal
          | .outOfFuel => .outOfFuel
        | some s2 =>
          match rest with
          | .illegal :: rest2 =>
            match record_scope_values vtab total_frame_size fuel local_count
                expression_count (i + 2) rest2 objects1 with
            | .ok (o, ls, es, ms) => .ok (o, ls, s2 :: first :: es, ms)
            | .fatal => .fatal
            | .outOfFuel => .outOfFuel
          | _ => .fatal
      | .fatal => .fatal
      | .outOfFuel => .outOfFuel
    else
      match get_monitor_value vtab total_frame_size fuel objects v with
      | .ok (objects1, mv) =>
        match record_scope_values vtab total_frame_size fuel local_count
            expression_count (i + 1) rest objects1 with
        | .ok (o, ls, es, ms) => .ok (o, ls, es, mv :: ms)
        | .fatal => .fatal
        | .outOfFuel => .outOfFuel
      | .fatal => .fatal
      | .outOfFuel => .outOfFuel

/-- The per-frame part of record_scope: the structural partition assert and
the construction of the arguments to describe_scope. -/
def record_scope_frame (vtab : List VirtualObjectDesc) (total_frame_size fuel : Nat)
    (f : FrameData) (objects : List ObjectValue) :
    TRes (List ObjectValue × ScopeRecord) :=
  let reexecute := compute_reexecute f.bci f.shouldReexecute f.duringCall
  if f.numLocals + f.numStack + f.numLocks = f.values.length then
    match record_scope_values vtab total_frame_size fuel f.numLocals f.numStack
        0 f.values objects with
    | .ok (o, ls, es, ms) =>
        .ok (o, ⟨f.methodId, f.bci, reexecute, f.rethrowException, ls, es, ms⟩)
    | .fatal => .fatal
    | .outOfFuel => .outOfFuel
  else
    .fatal

/-- Shallow embedding of record_scope over a BytecodePosition chain given as a
list with the innermost frame first and each tail being the caller chain: the
caller link is recursed into first, then the current frame is recorded, so the
describe_scope stream lists the outermost frame first. -/
def record_scope (vtab : List VirtualObjectDesc) (total_frame_size fuel : Nat) :
    List FrameData → List ObjectValue → TRes (List ObjectValue × List ScopeRecord)
  | [], objects => .ok (objects, [])
  | f :: caller_chain, objects =>
    match record_scope vtab total_frame_size fuel caller_chain objects with
    | .ok (o1, recs) =>
      match record_scope_frame vtab total_frame_size fuel f o1 with
      | .ok (o2, rec) => .ok (o2, recs ++ [rec])
      | .fatal => .fatal
      | .outOfFuel => .outOfFuel
    | .fatal => .fatal
    | .outOfFuel => .outOfFuel

/-- The producer-declared fields of a CompilationResult that the installer
state derives from. -/
structure CompResult where
  frameSize : Nat
  parameter_count : Nat
deriving DecidableEq, Repr

/-- The `_total_frame_size` computed by CodeInstaller::initialize_fields: the
declared frame size does not include the return address, so one machine word
is added. -/
def total_frame_size (comp : CompResult) : Nat :=
  comp.frameSize + HeapWordSize

/-- Relocation kinds appended by the site handlers. -/
inductive RelocKind where
  | runtime_call
  | virtual_call (invoke_mark_pc : Int)
  | static_call
  | opt_virtual_call
  | section_word (dest_offset : Nat)
  | oop_imm
  | metadata_imm
  | static_stub (call_pc : Int)
  | poll
  | poll_return
  | cleared_oop
deriving DecidableEq, Repr

/-- Observable side effects of the site handlers on the code buffer, the
debug-info recorder, and the offsets table. -/
inductive Event where
  | set_jump_destination (dest : Nat)
  | set_call_destination (dest : Nat)
  | set_mov_data (data : Int)
  | relocate (kind : RelocKind)
  | add_safepoint (pc_offset : Int) (leaf_graph_id : Int) (oop_map : OopMap)
  | describe_scope (rec : ScopeRecord)
  | end_safepoint (pc_offset : Int)
  | write_constant (dest_offset : Nat) (bits : Int)
  | patch_disp32 (value : Int)
  | patch_imm64 (value : Int)
  | patch_oop_imm (handle : Option Nat)
  | set_offsets_value (which : Nat) (pc : Int)
  | append_implicit_exception (pc1 pc2 : Int)
  | patch_poll_disp (value : Int)
  | set_byte_count (v : Nat)
  | set_being_initialized_offset (v : Nat)
  | set_mov_reg_mem_offset (v : Int)
deriving DecidableEq, Repr

/-- HotSpot align_size_up on 64-bit values: (size + alignment - 1) masked with
the two's-complement negation of (alignment - 1), which for alignment >= 1
equals 2^64 - alignment. -/
def align_size_up (size alignment : Nat) : Nat :=
  (size + (alignment - 1)) &&& (2 ^ 64 - alignment)

/-- max_jint. -/
def max_jint : Int := 2 ^ 31 - 1

/-- State of the constant/data section of the code buffer: its start address,
its current size (the `_constants->size()` high-water mark), and its base
alignment. -/
structure ConstantsSection where
  start : Nat
  size : Nat
  alignment : Nat
deriving DecidableEq, Repr

/-- One DataPatch site payload: the constant's kind character, primitive bits
and object handle, plus the requested alignment and the inlined flag. -/
structure DataPatchInput where
  kindChar : Char
  primitive : Int
  objectH : Option Nat
  alignment : Nat
  inlined : Bool
deriving DecidableEq, Repr

/-- Shallow embedding of site_DataPatch.  `next_instruction` is the address of
the instruction following the patched one (Assembler::locate_next_instruction).
The non-inlined float/long/double branch allocates aligned space in the
constant section, writes the primitive bits, patches the 32-bit displacement
operand, and records a section-word relocation. -/
def site_DataPatch (cs : ConstantsSection) (next_instruction : Nat)
    (p : DataPatchInput) : TRes (ConstantsSection × List Event) :=
  if p.kindChar = 'z' ∨ p.kindChar = 'b' ∨ p.kindChar = 's' ∨ p.kindChar = 'c' ∨
      p.kindChar = 'i' then
    .fatal
  else if p.kindChar = 'f' ∨ p.kindChar = 'j' ∨ p.kindChar = 'd' then
    if p.inlined then
      .ok (cs, [.patch_imm64 p.primitive])
    else
      match (if p.alignment > 0 then
               (if p.alignment ≤ cs.alignment then
                  some (align_size_up cs.size p.alignment)
                else none)
             else some cs.size) with
      | none => .fatal
      | some size =>
        let dest : Nat := cs.start + size
        let disp : Int := (dest : Int) - (next_instruction : Int)
        if -(2 ^ 31) ≤ disp ∧ disp < 2 ^ 31 then
          .ok ({ cs with size := size + BytesPerLong },
            [.write_constant size p.primitive, .patch_disp32 disp,
             .relocate (.section_word size)])
        else
          .fatal
  else if p.kindChar = 'a' then
    .ok (cs, [.patch_oop_imm p.objectH, .relocate .oop_imm])
  else
    .fatal

/-- The DebugInfo attached to a Call or Safepoint site: the two reference
maps and the BytecodePosition chain (innermost frame first, tails being the
caller links). -/
structure DebugInfoData where
  registerRefMap : Option GBitMap
  frameRefMap : GBitMap
  chain : List FrameData
deriving DecidableEq, Repr

/-- Shallow embedding of site_Safepoint: asserts debug info is present,
registers a safepoint at the site's own offset with leaf graph id -1 and the
decoded oop map, records the scope chain with a fresh seen-objects pool, and
closes the safepoint. -/
def site_Safepoint (vtab : List VirtualObjectDesc) (comp : CompResult) (fuel : Nat)
    (pc_offset : Int) (debug_info : Option DebugInfoData) : TRes (List Event) :=
  match debug_info with
  | none => .fatal
  | some di =>
    match create_oop_map (total_frame_size comp) comp.parameter_count
        di.registerRefMap di.frameRefMap with
    | .ok om =>
      match record_scope vtab (total_frame_size comp) fuel di.chain [] with
      | .ok (_, recs) =>
          .ok ([.add_safepoint pc_offset (-1) om] ++ recs.map .describe_scope ++
            [.end_safepoint pc_offset])
      | .fatal => .fatal
      | .outOfFuel => .outOfFuel
    | .fatal => .fatal
    | .outOfFuel => .outOfFuel

/-- Mark ids of the closed MarkId vocabulary.  The enum itself lives in
graalCodeInstaller.hpp, which is not part of this source set; the numeric
values are modelled as distinct small integers, which is all the dispatch
switch depends on. -/
def MARK_UNVERIFIED_ENTRY : Int := 1

/-- Mark id: verified entry point. -/
def MARK_VERIFIED_ENTRY : Int := 2

/-- Mark id: on-stack-replacement entry. -/
def MARK_OSR_ENTRY : Int := 3

/-- Mark id: exception handler entry. -/
def MARK_EXCEPTION_HANDLER_ENTRY : Int := 4

/-- Mark id: deoptimization handler entry. -/
def MARK_DEOPT_HANDLER_ENTRY : Int := 5

/-- Mark id: static call stub wiring. -/
def MARK_STATIC_CALL_STUB : Int := 6

/-- Mark id: upcoming invokevirtual call. -/
def MARK_INVOKEVIRTUAL : Int := 7

/-- Mark id: upcoming invokeinterface call. -/
def MARK_INVOKEINTERFACE : Int := 8

/-- Mark id: upcoming inlined-vtable-stub virtual call. -/
def MARK_INLINE_INVOKEVIRTUAL : Int := 9

/-- Mark id: the invalid (consumed) pending call-type value. -/
def MARK_INVOKE_INVALID : Int := 10

/-- Mark id: upcoming invokespecial call. -/
def MARK_INVOKESPECIAL : Int := 11

/-- Mark id: upcoming invokestatic call. -/
def MARK_INVOKESTATIC : Int := 12

/-- Mark id: implicit null check site. -/
def MARK_IMPLICIT_NULL : Int := 13

/-- Mark id: near safepoint poll. -/
def MARK_POLL_NEAR : Int := 14

/-- Mark id: far safepoint poll. -/
def MARK_POLL_FAR : Int := 15

/-- Mark id: near return poll. -/
def MARK_POLL_RETURN_NEAR : Int := 16

/-- Mark id: far return poll. -/
def MARK_POLL_RETURN_FAR : Int := 17

/-- Mark id: klass patching bookkeeping. -/
def MARK_KLASS_PATCHING : Int := 18

/-- Mark id: field access patching bookkeeping. -/
def MARK_ACCESS_FIELD_PATCHING : Int := 19

/-- Mark id: dummy oop relocation. -/
def MARK_DUMMY_OOP_RELOCATION : Int := 20

/-- The closed set of mark ids handled by site_Mark's switch. -/
def knownMarkIds : List Int :=
  [MARK_UNVERIFIED_ENTRY, MARK_VERIFIED_ENTRY, MARK_OSR_ENTRY,
   MARK_EXCEPTION_HANDLER_ENTRY, MARK_DEOPT_HANDLER_ENTRY, MARK_STATIC_CALL_STUB,
   MARK_INVOKEVIRTUAL, MARK_INVOKEINTERFACE, MARK_INLINE_INVOKEVIRTUAL,
   MARK_INVOKE_INVALID, MARK_INVOKESPECIAL, MARK_INVOKESTATIC,
   MARK_IMPLICIT_NULL, MARK_POLL_NEAR, MARK_POLL_FAR, MARK_POLL_RETURN_NEAR,
   MARK_POLL_RETURN_FAR, MARK_KLASS_PATCHING, MARK_ACCESS_FIELD_PATCHING,
   MARK_DUMMY_OOP_RELOCATION]

/-- The cross-site state carried by the Site Dispatcher: the pending call-type
marker and the address of the invoke mark that set it. -/
structure CallState where
  next_call_type : Int
  invoke_mark_pc : Int
deriving DecidableEq, Repr

/-- The target of a Call site: a boxed-Long runtime-stub id, a pre-existing
installed code unit (with its verified entry point), or a Java method
reference (whose staticness is known when it is resolved). -/
inductive CallTarget where
  | global_stub (stub_address : Nat)
  | installed_code (verified_entry_point : Nat)
  | java_method (is_static : Option Bool)
deriving DecidableEq, Repr

/-- The instruction shape decoded at a Call site's offset. -/
inductive InstKind where
  | call
  | jump
  | mov_literal64 (call_prefix_ok : Bool)
  | call_reg (next_inst_off : Nat)
  | other
deriving DecidableEq, Repr

/-- NativeCall::instruction_size on x86 (same as NativeJump's, as the code
asserts); the platform headers are outside this source set. -/
def NativeCall_instruction_size : Nat := 5

/-- NativeMovConstReg::instruction_size on x86-64. -/
def NativeMovConstReg_instruction_size : Nat := 10

/-- SharedRuntime resolution stub addresses (external to this source set;
distinct opaque values). -/
def resolve_virtual_call_stub : Nat := 9001

/-- SharedRuntime::get_resolve_static_call_stub. -/
def resolve_static_call_stub : Nat := 9002

/-- SharedRuntime::get_resolve_opt_virtual_call_stub. -/
def resolve_opt_virtual_call_stub : Nat := 9003

/-- The instruction-shape decoding of site_Call: computes the offset of the
next instruction, asserting the call-with-prefix shape of a mov+call pair and
that a call-through-register only occurs for method targets (the vtable-stub
case). -/
def call_next_pc_offset (pc_offset : Int) (target : CallTarget)
    (inst : InstKind) : TRes Int :=
  match inst with
  | .call => .ok (pc_offset + NativeCall_instruction_size)
  | .jump => .ok (pc_offset + NativeCall_instruction_size)
  | .mov_literal64 call_prefix_ok =>
      if call_prefix_ok then
        .ok (pc_offset + NativeMovConstReg_instruction_size + 3)
      else .fatal
  | .call_reg next_inst_off =>
      (match target with
       | .global_stub _ => .fatal
       | _ => .ok (pc_offset + next_inst_off))
  | .other => .fatal

/-- The debug-info block of site_Call: when debug info is present, a safepoint
is added at the next-instruction offset with the innermost frame's leaf graph
id and the decoded oop map, followed by the recorded scope chain (built from a
fresh seen-objects pool). -/
def call_debug_info_events (vtab : List VirtualObjectDesc) (comp : CompResult)
    (fuel : Nat) (next_pc_offset : Int) (debug_info : Option DebugInfoData) :
    TRes (List Event) :=
  match debug_info with
  | some di =>
    match di.chain with
    | [] => .fatal
    | frame :: _ =>
      match create_oop_map (total_frame_size comp) comp.parameter_count
          di.registerRefMap di.frameRefMap with
      | .ok om =>
        match record_scope vtab (total_frame_size comp) fuel di.chain [] with
        | .ok (_, recs) =>
            .ok ([Event.add_safepoint next_pc_offset frame.leafGraphId om] ++
              recs.map .describe_scope)
        | .fatal => .fatal
        | .outOfFuel => .outOfFuel
      | .fatal => .fatal
      | .outOfFuel => .outOfFuel
  | none => .ok []

/-- The destination-resolution block of site_Call: a runtime-stub target is
patched by instruction shape; a method target asserts debug info and switches
on the pending call-type marker to select the resolution stub and relocation
kind. -/
def call_destination_events (st : CallState) (target : CallTarget)
    (debug_info : Option DebugInfoData) (inst : InstKind) : TRes (List Event) :=
  match target with
  | .global_stub stub_address =>
    match inst with
    | .call => .ok [Event.set_call_destination stub_address,
        .relocate .runtime_call]
    | .mov_literal64 _ => .ok [Event.set_mov_data (stub_address : Int),
        .relocate .runtime_call]
    | _ => .ok [Event.set_jump_destination stub_address,
        .relocate .runtime_call]
  | _ =>
    if debug_info = none then .fatal
    else if st.next_call_type = MARK_INLINE_INVOKEVIRTUAL then
      .ok []
    else if st.next_call_type = MARK_INVOKEVIRTUAL ∨
        st.next_call_type = MARK_INVOKEINTERFACE then
      if target = .java_method (some true) then .fatal
      else .ok [Event.set_call_destination resolve_virtual_call_stub,
        .relocate (.virtual_call st.invoke_mark_pc)]
    else if st.next_call_type = MARK_INVOKESTATIC then
      if target = .java_method (some false) then .fatal
      else .ok [Event.set_call_destination resolve_static_call_stub,
        .relocate .static_call]
    else if st.next_call_type = MARK_INVOKESPECIAL then
      if target = .java_method (some true) then .fatal
      else .ok [Event.set_call_destination resolve_opt_virtual_call_stub,
        .relocate .opt_virtual_call]
    else
      .fatal

/-- Shallow embedding of site_Call.  Computes the next instruction offset from
the decoded instruction shape; returns early (patching a direct jump to the
verified entry point) for a pre-existing installed-code target; otherwise
registers a safepoint plus scope chain when debug info is present, patches the
destination by target kind and pending call type, resets the pending call type
to invalid, and closes the safepoint. -/
def site_Call (vtab : List VirtualObjectDesc) (comp : CompResult) (fuel : Nat)
    (st : CallState) (pc_offset : Int) (target : CallTarget)
    (debug_info : Option DebugInfoData) (inst : InstKind) :
    TRes (CallState × List Event) :=
  match call_next_pc_offset pc_offset target inst with
  | .fatal => .fatal
  | .outOfFuel => .outOfFuel
  | .ok next_pc_offset =>
    match target with
    | .installed_code verified_entry_point =>
      if inst = .jump then
        .ok (st, [.set_jump_destination verified_entry_point, .relocate .runtime_call])
      else
        .fatal
    | _ =>
      match call_debug_info_events vtab comp fuel next_pc_offset debug_info with
      | .fatal => .fatal
      | .outOfFuel => .outOfFuel
      | .ok events1 =>
        match call_destination_events st target debug_info inst with
        | .fatal => .fatal
        | .outOfFuel => .outOfFuel
        | .ok events2 =>
          let st1 : CallState := { st with next_call_type := MARK_INVOKE_INVALID }
          let events3 : List Event :=
            if debug_info.isSome then [.end_safepoint next_pc_offset] else []
          .ok (st1, events1 ++ events2 ++ events3)

/-- The instruction-memory context a Mark site reads and asserts on.  These
are bytes of the copied code buffer, supplied by the producer. -/
structure MarkEnv where
  mov_const_data : Int
  byte_skip : Nat
  mov_reg_mem_offset : Int
  non_oop_word : Int
  polling_page_disp : Int
deriving DecidableEq, Repr

/-- Shallow embedding of site_Mark.  A NULL id skips the switch entirely; the
invokevirtual and invokeinterface cases initialise the inline cache and fall
through to the group that latches the pending call type; the near-poll cases
fall through to the far-poll relocations; an id outside the closed vocabulary
is a fatal ShouldNotReachHere. -/
def site_Mark (env : MarkEnv) (st : CallState) (pc_offset : Int)
    (id? : Option Int) (references : List Int) : TRes (CallState × List Event) :=
  match id? with
  | none => .ok (st, [])
  | some id =>
    if id = MARK_UNVERIFIED_ENTRY then
      .ok (st, [.set_offsets_value 0 pc_offset])
    else if id = MARK_VERIFIED_ENTRY then
      .ok (st, [.set_offsets_value 1 pc_offset])
    else if id = MARK_OSR_ENTRY then
      .ok (st, [.set_offsets_value 2 pc_offset])
    else if id = MARK_EXCEPTION_HANDLER_ENTRY then
      .ok (st, [.set_offsets_value 3 pc_offset])
    else if id = MARK_DEOPT_HANDLER_ENTRY then
      .ok (st, [.set_offsets_value 4 pc_offset])
    else if id = MARK_STATIC_CALL_STUB then
      match references with
      | [r] => .ok (st, [.relocate .metadata_imm, .relocate (.static_stub r)])
      | _ => .fatal
    else if id = MARK_INVOKEVIRTUAL ∨ id = MARK_INVOKEINTERFACE then
      if env.mov_const_data = 0 then
        .ok ({ st with next_call_type := id, invoke_mark_pc := pc_offset },
          [.set_mov_data env.non_oop_word])
      else
        .fatal
    else if id = MARK_INLINE_INVOKEVIRTUAL ∨ id = MARK_INVOKE_INVALID ∨
        id = MARK_INVOKESPECIAL ∨ id = MARK_INVOKESTATIC then
      .ok ({ st with next_call_type := id, invoke_mark_pc := pc_offset }, [])
    else if id = MARK_IMPLICIT_NULL then
      .ok (st, [.append_implicit_exception pc_offset pc_offset])
    else if id = MARK_POLL_NEAR then
      .ok (st, [.patch_poll_disp env.polling_page_disp, .relocate .poll])
    else if id = MARK_POLL_FAR then
      .ok (st, [.relocate .poll])
    else if id = MARK_POLL_RETURN_NEAR then
      .ok (st, [.patch_poll_disp env.polling_page_disp, .relocate .poll_return])
    else if id = MARK_POLL_RETURN_FAR then
      .ok (st, [.relocate .poll_return])
    else if id = MARK_KLASS_PATCHING ∨ id = MARK_ACCESS_FIELD_PATCHING then
      if env.byte_skip = 5 then
        match references with
        | [r1, r2] =>
          let i_byte_count : Int := r2 - r1
          if 0 ≤ i_byte_count ∧ i_byte_count < 256 then
            let evs : List Event :=
              [.set_byte_count i_byte_count.toNat,
               .set_being_initialized_offset (i_byte_count.toNat + env.byte_skip)]
            if id = MARK_ACCESS_FIELD_PATCHING then
              if env.mov_reg_mem_offset = max_jint then
                .ok (st, evs ++ [.set_mov_reg_mem_offset 0])
              else
                .fatal
            else
              .ok (st, evs)
          else
            .fatal
        | _ => .fatal
      else
        .fatal
    else if id = MARK_DUMMY_OOP_RELOCATION then
      .ok (st, [.relocate .oop_imm, .relocate .cleared_oop])
    else
      .fatal

/-- Measure for fuel sufficiency of get_hotspot_value: the total translation
weight of the virtual-object table entries whose id is not yet registered in
the seen-objects pool. -/
def unseenWeight (vtab : List VirtualObjectDesc) (objects : List ObjectValue) : Nat :=
  (vtab.map (fun d =>
    if (objects.find? (fun o => o.oid = d.vid)).isNone
    then 2 + d.fieldValues.length else 0)).sum

/-- is_bit_set never exhausts fuel. -/
theorem is_bit_set_ne_outOfFuel (bm : GBitMap) (i : Nat) :
    is_bit_set bm i ≠ .outOfFuel := by
  simp only [is_bit_set]
  split <;> simp

/-- create_oop_map stores its total_frame_size argument in the decoded map. -/
theorem create_oop_map_frame_size (tfs pc : Nat) (rm : Option GBitMap)
    (fm : GBitMap) (m : OopMap) (h : create_oop_map tfs pc rm fm = .ok m) :
    m.frame_size = tfs := by
  unfold create_oop_map at h
  repeat' split at h
  all_goals first
    | (cases h; rfl)
    | simp at h

/-- record_scope_frame copies the frame's method, bci, rethrow flag and the
computed reexecute flag into the scope record. -/
theorem record_scope_frame_fields (vtab : List VirtualObjectDesc)
    (tfs fuel : Nat) (f : FrameData) (objects o : List ObjectValue)
    (rec : ScopeRecord)
    (h : record_scope_frame vtab tfs fuel f objects = .ok (o, rec)) :
    rec.methodId = f.methodId ∧ rec.bci = f.bci ∧
    rec.rethrow_exception = f.rethrowException ∧
    rec.reexecute = compute_reexecute f.bci f.shouldReexecute f.duringCall := by
  simp only [record_scope_frame] at h
  repeat' split at h
  all_goals first
    | (cases h; exact ⟨rfl, rfl, rfl, rfl⟩)
    | simp at h

/-- C1: for every debug-info site whose BytecodePosition chain has depth n,
record_scope records exactly n scopes, and because the caller link is recursed
into before the current frame is recorded, the describe_scope stream lists the
outermost frame first: it is the reverse of the innermost-first caller chain,
which is exactly what the runtime debug-info table consumes as an
innermost-to-outermost sender chain. -/
theorem record_scope_depth_and_order (vtab : List VirtualObjectDesc)
    (tfs fuel : Nat) (chain : List FrameData) (objects objects' : List ObjectValue)
    (recs : List ScopeRecord)
    (h : record_scope vtab tfs fuel chain objects = .ok (objects', recs)) :
    recs.length = chain.length ∧
    recs.map (fun r => (r.methodId, r.bci)) =
      (chain.map (fun f => (f.methodId, f.bci))).reverse := by
  induction chain generalizing objects objects' recs with
  | nil =>
    unfold record_scope at h
    cases h
    simp
  | cons f rest ih =>
    unfold record_scope at h
    split at h
    · rename_i o1 recs1 hr
      split at h
      · rename_i o2 rec hf
        cases h
        obtain ⟨hlen, hord⟩ := ih _ _ _ hr
        obtain ⟨hm, hb, _, _⟩ := record_scope_frame_fields _ _ _ _ _ _ _ hf
        constructor
        · simp [hlen]
        · simp [hord, hm, hb]
      · simp at h
      · simp at h
    · simp at h
    · simp at h

/-- Witness for C1: the scenario of a depth-3 chain A calls B calls C at a
safepoint (innermost C first in the caller chain) records exactly 3 scopes,
and reading the describe stream backwards gives C, B, A (innermost to
outermost). -/
theorem record_scope_depth_and_order_witness :
    record_scope [] 16 1
        [⟨30, 3, false, false, false, 0, 0, 0, [], 0⟩,
         ⟨20, 2, false, false, false, 0, 0, 0, [], 0⟩,
         ⟨10, 1, false, false, false, 0, 0, 0, [], 0⟩] [] =
      .ok ([], [⟨10, 1, true, false, [], [], []⟩,
                ⟨20, 2, true, false, [], [], []⟩,
                ⟨30, 3, true, false, [], [], []⟩]) ∧
    ([⟨10, 1, true, false, [], [], []⟩, ⟨20, 2, true, false, [], [], []⟩,
      (⟨30, 3, true, false, [], [], []⟩ : ScopeRecord)].length = 3 ∧
     [(⟨10, 1, true, false, [], [], []⟩ : ScopeRecord),
      ⟨20, 2, true, false, [], [], []⟩,
      ⟨30, 3, true, false, [], [], []⟩].map (fun r => (r.methodId, r.bci)) =
       ([(⟨30, 3, false, false, false, 0, 0, 0, [], 0⟩ : FrameData),
         ⟨20, 2, false, false, false, 0, 0, 0, [], 0⟩,
         ⟨10, 1, false, false, false, 0, 0, 0, [], 0⟩].map
           (fun f => (f.methodId, f.bci))).reverse) :=
  ⟨by decide,
   record_scope_depth_and_order [] 16 1
     [⟨30, 3, false, false, false, 0, 0, 0, [], 0⟩,
      ⟨20, 2, false, false, false, 0, 0, 0, [], 0⟩,
      ⟨10, 1, false, false, false, 0, 0, 0, [], 0⟩] [] []
     [⟨10, 1, true, false, [], [], []⟩,
      ⟨20, 2, true, false, [], [], []⟩,
      ⟨30, 3, true, false, [], [], []⟩] (by decide)⟩

/-- C10: the reexecute flag recorded for a frame is true exactly when the
frame's bci is not a sentinel (-1 or -2) and its duringCall flag is false, and
the bytecode-derived reexecute answer never influences the recorded flag,
because the frame-based test unconditionally overwrites it. -/
theorem record_scope_reexecute_flag :
    (∀ (vtab : List VirtualObjectDesc) (tfs fuel : Nat) (f : FrameData)
       (objects o : List ObjectValue) (rec : ScopeRecord),
       record_scope_frame vtab tfs fuel f objects = .ok (o, rec) →
       (rec.reexecute = true ↔ (f.bci ≠ -1 ∧ f.bci ≠ -2 ∧ f.duringCall = false)))
    ∧ (∀ (vtab : List VirtualObjectDesc) (tfs fuel : Nat) (f : FrameData)
         (objects : List ObjectValue) (b : Bool),
         record_scope_frame vtab tfs fuel { f with shouldReexecute := b } objects =
           record_scope_frame vtab tfs fuel f objects) := by
  constructor
  · intro vtab tfs fuel f objects o rec h
    obtain ⟨_, _, _, hre⟩ := record_scope_frame_fields _ _ _ _ _ _ _ h
    rw [hre]
    unfold compute_reexecute
    by_cases hb : f.bci = -1 ∨ f.bci = -2
    · simp [hb]
      tauto
    · push_neg at hb
      cases hd : f.duringCall <;> simp [hb.1, hb.2, hd]
  · intro vtab tfs fuel f objects b
    rfl

/-- Witness for C10: a concrete frame with bci 7, duringCall false and a
bytecode-derived answer of false still records reexecute = true. -/
theorem record_scope_reexecute_flag_witness :
    ((⟨7, 7, true, false, [], [], []⟩ : ScopeRecord).reexecute = true ↔
      ((7 : Int) ≠ -1 ∧ (7 : Int) ≠ -2 ∧ false = false)) :=
  record_scope_reexecute_flag.1 [] 16 1
    ⟨7, 7, false, false, false, 0, 0, 0, [], 0⟩ [] [] _ (by decide)

/-- C8: a Mark site carrying an id outside the closed vocabulary of known mark
ids makes installation abort fatally (ShouldNotReachHere); no path through the
mark handler reaches an unrecognized id and returns normally. -/
theorem site_Mark_unknown_id_fatal (env : MarkEnv) (st : CallState)
    (pc_offset : Int) (id : Int) (references : List Int)
    (h : id ∉ knownMarkIds) :
    site_Mark env st pc_offset (some id) references = .fatal := by
  simp only [knownMarkIds, List.mem_cons, List.not_mem_nil, or_false, not_or] at h
  obtain ⟨h1, h2, h3, h4, h5, h6, h7, h8, h9, h10,
          h11, h12, h13, h14, h15, h16, h17, h18, h19, h20⟩ := h
  simp [site_Mark, h1, h2, h3, h4, h5, h6, h7, h8, h9, h10,
        h11, h12, h13, h14, h15, h16, h17, h18, h19, h20]

/-- Witness for C8: mark id 0 is unknown and the handler is fatal on it. -/
theorem site_Mark_unknown_id_fatal_witness :
    (0 : Int) ∉ knownMarkIds ∧
      site_Mark ⟨0, 5, 0, 0, 0⟩ ⟨MARK_INVOKE_INVALID, 0⟩ 0 (some 0) [] = .fatal :=
  ⟨by decide,
   site_Mark_unknown_id_fatal ⟨0, 5, 0, 0, 0⟩ ⟨MARK_INVOKE_INVALID, 0⟩ 0 0 []
     (by decide)⟩

/-- C5: a Call site whose target is a pre-existing installed code unit is
patched into a direct jump to that unit's verified entry point and handled by
an early return: the emitted effects are exactly the jump patch and its
runtime-call relocation, with no safepoint registered and no scope
recorded (regardless of any attached debug info). -/
theorem site_Call_installed_code_early_return (vtab : List VirtualObjectDesc)
    (comp : CompResult) (fuel : Nat) (st : CallState) (pc_offset : Int)
    (entry : Nat) (debug_info : Option DebugInfoData) :
    site_Call vtab comp fuel st pc_offset (.installed_code entry) debug_info .jump
      = .ok (st, [.set_jump_destination entry, .relocate .runtime_call]) ∧
    (∀ ev ∈ [Event.set_jump_destination entry, Event.relocate .runtime_call],
      (∀ p l om, ev ≠ .add_safepoint p l om) ∧ (∀ r, ev ≠ .describe_scope r)) := by
  constructor
  · simp [site_Call, call_next_pc_offset]
  · intro ev hev
    simp only [List.mem_cons, List.not_mem_nil, or_false] at hev
    rcases hev with h | h <;> subst h <;> exact ⟨fun p l om => by simp, fun r => by simp⟩

/-- Counterexample for C4 as stated: a Call site whose target is a
pre-existing installed code unit returns early and leaves a pending
invokevirtual marker in place, so it is not true that after processing any
Call site the marker is invalid. -/
theorem pending_call_type_counterexample :
    site_Call [] ⟨0, 0⟩ 1 ⟨MARK_INVOKEVIRTUAL, 0⟩ 0 (.installed_code 500) none .jump
      = .ok (⟨MARK_INVOKEVIRTUAL, 0⟩,
          [.set_jump_destination 500, .relocate .runtime_call]) ∧
    (⟨MARK_INVOKEVIRTUAL, 0⟩ : CallState).next_call_type ≠ MARK_INVOKE_INVALID := by
  decide

/-- C4 (amended): the pending call-type marker is set by an invocation-style
Mark site, and after the dispatcher finishes processing any Call site other
than the early-return case of a call to a pre-existing installed code unit
(which leaves the marker untouched), the marker is reset to the invalid
value. -/
theorem pending_call_type_protocol :
    (∀ (env : MarkEnv) (st : CallState) (pc : Int) (refs : List Int) (id : Int)
       (st' : CallState) (evs : List Event),
       (id = MARK_INVOKEVIRTUAL ∨ id = MARK_INVOKEINTERFACE ∨
        id = MARK_INLINE_INVOKEVIRTUAL ∨ id = MARK_INVOKESPECIAL ∨
        id = MARK_INVOKESTATIC) →
       site_Mark env st pc (some id) refs = .ok (st', evs) →
       st'.next_call_type = id)
    ∧ (∀ (vtab : List VirtualObjectDesc) (comp : CompResult) (fuel : Nat)
         (st : CallState) (pc : Int) (target : CallTarget)
         (di : Option DebugInfoData) (inst : InstKind) (st' : CallState)
         (evs : List Event),
         (∀ e, target ≠ .installed_code e) →
         site_Call vtab comp fuel st pc target di inst = .ok (st', evs) →
         st'.next_call_type = MARK_INVOKE_INVALID) := by
  constructor
  · intro env st pc refs id st' evs hid h
    rcases hid with rfl | rfl | rfl | rfl | rfl
    all_goals norm_num [site_Mark, MARK_UNVERIFIED_ENTRY, MARK_VERIFIED_ENTRY,
      MARK_OSR_ENTRY, MARK_EXCEPTION_HANDLER_ENTRY, MARK_DEOPT_HANDLER_ENTRY,
      MARK_STATIC_CALL_STUB, MARK_INVOKEVIRTUAL, MARK_INVOKEINTERFACE,
      MARK_INLINE_INVOKEVIRTUAL, MARK_INVOKE_INVALID, MARK_INVOKESPECIAL,
      MARK_INVOKESTATIC, MARK_IMPLICIT_NULL, MARK_POLL_NEAR, MARK_POLL_FAR,
      MARK_POLL_RETURN_NEAR, MARK_POLL_RETURN_FAR, MARK_KLASS_PATCHING,
      MARK_ACCESS_FIELD_PATCHING, MARK_DUMMY_OOP_RELOCATION] at h
    all_goals repeat' split at h
    all_goals first
      | (simp at h; done)
      | (obtain ⟨h1, h2⟩ := h; subst h1; rfl)
      | (cases h; rfl)
  · intro vtab comp fuel st pc target di inst st' evs htgt h
    unfold site_Call at h
    repeat' split at h
    all_goals try simp only [] at h
    all_goals first
      | (exact absurd rfl (htgt _))
      | (simp at h; done)
      | (obtain ⟨h1, h2⟩ := h; subst h1; rfl)
      | (cases h; rfl)

/-- Witness for C4 (amended): an invokestatic mark latches the marker, and a
stub call with no pending consumption still leaves the marker invalid
afterwards. -/
theorem pending_call_type_protocol_witness :
    (⟨MARK_INVOKESTATIC, 3⟩ : CallState).next_call_type = MARK_INVOKESTATIC ∧
    (⟨MARK_INVOKE_INVALID, 9⟩ : CallState).next_call_type = MARK_INVOKE_INVALID :=
  ⟨pending_call_type_protocol.1 ⟨0, 5, 0, 0, 0⟩ ⟨MARK_INVOKE_INVALID, 0⟩ 3 []
      MARK_INVOKESTATIC ⟨MARK_INVOKESTATIC, 3⟩ [] (by decide) (by decide),
   pending_call_type_protocol.2 [] ⟨0, 0⟩ 1 ⟨MARK_INVOKEVIRTUAL, 9⟩ 0
      (.global_stub 77) none .call ⟨MARK_INVOKE_INVALID, 9⟩
      [.set_call_destination 77, .relocate .runtime_call]
      (fun e => by simp) (by decide)⟩

/-- Any oop map registered by the debug-info block of site_Call was created
with the installer's total frame size. -/
theorem call_debug_info_events_oopmap (vtab : List VirtualObjectDesc)
    (comp : CompResult) (fuel : Nat) (next : Int) (di : Option DebugInfoData)
    (evs : List Event) (p l : Int) (om : OopMap)
    (h : call_debug_info_events vtab comp fuel next di = .ok evs)
    (hmem : Event.add_safepoint p l om ∈ evs) :
    om.frame_size = total_frame_size comp := by
  unfold call_debug_info_events at h
  cases di with
  | none => cases h; simp at hmem
  | some dio =>
    dsimp only at h
    cases hc : dio.chain with
    | nil => rw [hc] at h; simp at h
    | cons frame tl =>
      rw [hc] at h
      cases hcm : create_oop_map (total_frame_size comp) comp.parameter_count
          dio.registerRefMap dio.frameRefMap with
      | ok om0 =>
        rw [hcm] at h
        cases hrs : record_scope vtab (total_frame_size comp) fuel (frame :: tl) [] with
        | ok pr =>
          obtain ⟨px, recs⟩ := pr
          rw [hrs] at h
          cases h
          simp only [List.mem_append, List.mem_cons, List.not_mem_nil, or_false,
            List.mem_map] at hmem
          rcases hmem with hmem | ⟨r, _, hr⟩
          · cases hmem
            exact create_oop_map_frame_size _ _ _ _ _ hcm
          · cases hr
        | fatal => rw [hrs] at h; simp at h
        | outOfFuel => rw [hrs] at h; simp at h
      | fatal => rw [hcm] at h; simp at h
      | outOfFuel => rw [hcm] at h; simp at h

/-- The destination-resolution block of site_Call never registers a
safepoint. -/
theorem call_destination_events_no_safepoint (st : CallState)
    (target : CallTarget) (di : Option DebugInfoData) (inst : InstKind)
    (evs : List Event) (p l : Int) (om : OopMap)
    (h : call_destination_events st target di inst = .ok evs) :
    Event.add_safepoint p l om ∉ evs := by
  unfold call_destination_events at h
  repeat' split at h
  all_goals first
    | (simp at h; done)
    | (cases h; simp)

/-- C9: the frame size used throughout installation is the producer-declared
frame size plus one machine word for the return address: initialize_fields
augments the declared size, a stack slot with the add-frame-size flag is
placed at its offset plus the augmented size, and every oop map registered by
site_Safepoint or site_Call carries the augmented size, never the declared
one. -/
theorem frame_size_includes_return_address :
    (∀ comp : CompResult, total_frame_size comp = comp.frameSize + HeapWordSize ∧
       total_frame_size comp ≠ comp.frameSize)
    ∧ (∀ (vtab : List VirtualObjectDesc) (comp : CompResult) (fuel : Nat)
         (objects : List ObjectValue) (off : Int) (kind : BType),
         ∃ lt snd,
           get_hotspot_value vtab (total_frame_size comp) (fuel + 1) objects
               (.stack_slot off true kind)
             = .ok (objects,
                 .loc (.stk_loc lt (off + ((comp.frameSize + HeapWordSize : Nat) : Int))),
                 snd))
    ∧ (∀ (vtab : List VirtualObjectDesc) (comp : CompResult) (fuel : Nat)
         (pc p l : Int) (di : Option DebugInfoData) (evs : List Event) (om : OopMap),
         site_Safepoint vtab comp fuel pc di = .ok evs →
         Event.add_safepoint p l om ∈ evs →
         om.frame_size = comp.frameSize + HeapWordSize)
    ∧ (∀ (vtab : List VirtualObjectDesc) (comp : CompResult) (fuel : Nat)
         (st : CallState) (pc p l : Int) (target : CallTarget)
         (di : Option DebugInfoData) (inst : InstKind) (st' : CallState)
         (evs : List Event) (om : OopMap),
         site_Call vtab comp fuel st pc target di inst = .ok (st', evs) →
         Event.add_safepoint p l om ∈ evs →
         om.frame_size = comp.frameSize + HeapWordSize) := by
  refine ⟨?_, ?_, ?_, ?_⟩
  · intro comp
    exact ⟨rfl, by simp [total_frame_size, HeapWordSize]⟩
  · intro vtab comp fuel objects off kind
    exact ⟨_, _, rfl⟩
  · intro vtab comp fuel pc p l di evs om h hmem
    unfold site_Safepoint at h
    cases di with
    | none => simp at h
    | some dio =>
      dsimp only at h
      cases hcm : create_oop_map (total_frame_size comp) comp.parameter_count
          dio.registerRefMap dio.frameRefMap with
      | ok om0 =>
        rw [hcm] at h
        cases hrs : record_scope vtab (total_frame_size comp) fuel dio.chain [] with
        | ok pr =>
          obtain ⟨px, recs⟩ := pr
          rw [hrs] at h
          cases h
          simp only [List.mem_append, List.mem_cons, List.not_mem_nil, or_false,
            List.mem_map, List.mem_singleton] at hmem
          rcases hmem with (hmem | ⟨r, _, hr⟩) | hmem
          · cases hmem
            exact create_oop_map_frame_size _ _ _ _ _ hcm
          · cases hr
          · cases hmem
        | fatal => rw [hrs] at h; simp at h
        | outOfFuel => rw [hrs] at h; simp at h
      | fatal => rw [hcm] at h; simp at h
      | outOfFuel => rw [hcm] at h; simp at h
  · intro vtab comp fuel st pc p l target di inst st' evs om h hmem
    unfold site_Call at h
    cases hnext : call_next_pc_offset pc target inst with
    | ok next =>
      rw [hnext] at h
      cases target with
      | installed_code e =>
        dsimp only at h
        split at h
        · cases h
          simp at hmem
        · simp at h
      | global_stub s =>
        dsimp only at h
        cases h1 : call_debug_info_events vtab comp fuel next di with
        | ok evs1 =>
          rw [h1] at h
          cases h2 : call_destination_events st (.global_stub s) di inst with
          | ok evs2 =>
            rw [h2] at h
            cases h
            simp only [List.mem_append] at hmem
            rcases hmem with (hmem | hmem) | hmem
            · exact call_debug_info_events_oopmap _ _ _ _ _ _ _ _ _ h1 hmem
            · exact absurd hmem (call_destination_events_no_safepoint _ _ _ _ _ _ _ _ h2)
            · split at hmem <;> simp at hmem
          | fatal => rw [h2] at h; simp at h
          | outOfFuel => rw [h2] at h; simp at h
        | fatal => rw [h1] at h; simp at h
        | outOfFuel => rw [h1] at h; simp at h
      | java_method ms =>
        dsimp only at h
        cases h1 : call_debug_info_events vtab comp fuel next di with
        | ok evs1 =>
          rw [h1] at h
          cases h2 : call_destination_events st (.java_method ms) di inst with
          | ok evs2 =>
            rw [h2] at h
            cases h
            simp only [List.mem_append] at hmem
            rcases hmem with (hmem | hmem) | hmem
            · exact call_debug_info_events_oopmap _ _ _ _ _ _ _ _ _ h1 hmem
            · exact absurd hmem (call_destination_events_no_safepoint _ _ _ _ _ _ _ _ h2)
            · split at hmem <;> simp at hmem
          | fatal => rw [h2] at h; simp at h
          | outOfFuel => rw [h2] at h; simp at h
        | fatal => rw [h1] at h; simp at h
        | outOfFuel => rw [h1] at h; simp at h
    | fatal => rw [hnext] at h; simp at h
    | outOfFuel => rw [hnext] at h; simp at h

/-- Witness for C9: a safepoint site of a unit with declared frame size 40
records an oop map with frame size 48. -/
theorem frame_size_includes_return_address_witness :
    (⟨48, 2, []⟩ : OopMap).frame_size = 40 + HeapWordSize :=
  frame_size_includes_return_address.2.2.1 [] ⟨40, 2⟩ 1 5 5 (-1)
    (some ⟨none, ⟨[]⟩, [⟨9, 3, false, false, false, 0, 0, 0, [], 0⟩]⟩)
    [.add_safepoint 5 (-1) ⟨48, 2, []⟩,
     .describe_scope ⟨9, 3, true, false, [], [], []⟩,
     .end_safepoint 5]
    ⟨48, 2, []⟩ (by decide) (by decide)

/-- If any index in the list has its reference bit set on a register that may
not hold an oop, the register loop of create_oop_map is fatal. -/
theorem oop_map_regs_fatal (rm : GBitMap) (l : List Nat) (i : Nat)
    (hi : i ∈ l) (hbit : is_bit_set rm i = .ok true)
    (hallow : OOP_ALLOWED.getD i false = false) :
    oop_map_regs rm l = .fatal := by
  induction l with
  | nil => cases hi
  | cons j t ih =>
    rcases List.mem_cons.mp hi with rfl | hi2
    · simp only [oop_map_regs, hbit, hallow]
      simp
    · have hrec := ih hi2
      cases hb : is_bit_set rm j with
      | ok b =>
        cases b <;> simp only [oop_map_regs, hb, hrec] <;> simp
      | fatal => simp only [oop_map_regs, hb]
      | outOfFuel => exact absurd hb (is_bit_set_ne_outOfFuel _ _)

/-- If every index is within the bitset words and every set bit is on an
oop-capable register, the register loop of create_oop_map succeeds. -/
theorem oop_map_regs_ok (rm : GBitMap) (l : List Nat)
    (hw : ∀ j ∈ l, j / MapWordBits < rm.words.length)
    (hall : ∀ j ∈ l, is_bit_set rm j = .ok true →
      OOP_ALLOWED.getD j false = true) :
    ∃ es, oop_map_regs rm l = .ok es := by
  induction l with
  | nil => exact ⟨[], rfl⟩
  | cons j t ih =>
    obtain ⟨es, hes⟩ := ih (fun x hx => hw x (List.mem_cons_of_mem _ hx))
      (fun x hx h => hall x (List.mem_cons_of_mem _ hx) h)
    have hb : is_bit_set rm j =
        .ok (Nat.testBit (rm.words.getD (j / MapWordBits) 0) (j % MapWordBits)) := by
      simp [is_bit_set, hw j (List.mem_cons_self _ _)]
    cases hv : Nat.testBit (rm.words.getD (j / MapWordBits) 0) (j % MapWordBits) with
    | false =>
      rw [hv] at hb
      refine ⟨⟨.reg j, false⟩ :: es, ?_⟩
      simp only [oop_map_regs, hb, hes]
      simp
    | true =>
      rw [hv] at hb
      have ha := hall j (List.mem_cons_self _ _) hb
      refine ⟨⟨.reg j, true⟩ :: es, ?_⟩
      simp only [oop_map_regs, hb, ha, hes]
      simp

/-- If every index is within the bitset words, the frame loop of
create_oop_map succeeds. -/
theorem oop_map_frame_ok (fm : GBitMap) (l : List Nat)
    (hw : ∀ j ∈ l, j / MapWordBits < fm.words.length) :
    ∃ es, oop_map_frame fm l = .ok es := by
  induction l with
  | nil => exact ⟨[], rfl⟩
  | cons j t ih =>
    obtain ⟨es, hes⟩ := ih (fun x hx => hw x (List.mem_cons_of_mem _ hx))
    have hb : is_bit_set fm j =
        .ok (Nat.testBit (fm.words.getD (j / MapWordBits) 0) (j % MapWordBits)) := by
      simp [is_bit_set, hw j (List.mem_cons_self _ _)]
    refine ⟨⟨.stack (j * 2),
      Nat.testBit (fm.words.getD (j / MapWordBits) 0) (j % MapWordBits)⟩ :: es, ?_⟩
    simp only [oop_map_frame, hb, hes]

/-- C6: a reference-map bit set on a register outside the allowed-reference
subset makes the decoder fail fatally, and when every set register bit lies in
the allowed subset (and the register bitset is non-empty, so the bound assert
holds) the error branch is unreachable and decoding succeeds. -/
theorem create_oop_map_register_contract :
    (∀ (tfs pc : Nat) (rm fm : GBitMap) (i : Nat),
       i < NUM_CPU_REGS → is_bit_set rm i = .ok true →
       OOP_ALLOWED.getD i false = false →
       create_oop_map tfs pc (some rm) fm = .fatal)
    ∧ (∀ (tfs pc : Nat) (rm fm : GBitMap),
        rm.words ≠ [] →
        (∀ i, i < NUM_CPU_REGS → is_bit_set rm i = .ok true →
          OOP_ALLOWED.getD i false = true) →
        ∃ m, create_oop_map tfs pc (some rm) fm = .ok m) := by
  constructor
  · intro tfs pc rm fm i hi hbit hallow
    have hf := oop_map_regs_fatal rm (List.range NUM_CPU_REGS) i
      (List.mem_range.mpr hi) hbit hallow
    simp [create_oop_map, hf]
  · intro tfs pc rm fm hw hall
    have hlen : 0 < rm.words.length := List.length_pos.mpr hw
    obtain ⟨regs, hregs⟩ := oop_map_regs_ok rm (List.range NUM_CPU_REGS)
      (fun j hj => by
        have hj16 : j < NUM_CPU_REGS := List.mem_range.mp hj
        have hj64 : j / MapWordBits = 0 := Nat.div_eq_of_lt (by
          simp only [MapWordBits]
          simp only [NUM_CPU_REGS] at hj16
          omega)
        rw [hj64]
        exact hlen)
      (fun j hj h => hall j (List.mem_range.mp hj) h)
    obtain ⟨fr, hfr⟩ := oop_map_frame_ok fm (List.range (bitmap_size fm))
      (fun j hj => by
        have hjs : j < bitmap_size fm := List.mem_range.mp hj
        unfold bitmap_size at hjs
        refine (Nat.div_lt_iff_lt_mul ?_).mpr ?_
        · simp [MapWordBits]
        · exact hjs)
    exact ⟨⟨tfs, pc, regs ++ fr⟩, by simp [create_oop_map, hregs, hfr]⟩

/-- Witness for C6: a bit on rsp (register 4, not oop-capable) is fatal, and a
map with bits only on rax, rcx and rbx decodes successfully. -/
theorem create_oop_map_register_contract_witness :
    create_oop_map 48 2 (some ⟨[16]⟩) ⟨[]⟩ = .fatal ∧
    ∃ m, create_oop_map 48 2 (some ⟨[11]⟩) ⟨[]⟩ = .ok m :=
  ⟨create_oop_map_register_contract.1 48 2 ⟨[16]⟩ ⟨[]⟩ 4 (by decide) (by decide)
     (by decide),
   create_oop_map_register_contract.2 48 2 ⟨[11]⟩ ⟨[]⟩ (by decide)
     (by decide)⟩

/-- Masking with the 64-bit two's-complement pattern 2^64 - 2^k clears the low
k bits: it equals rounding down to a multiple of 2^k. -/
theorem and_two_pow_complement (k x : Nat) (hk : k ≤ 64) (hx : x < 2 ^ 64) :
    x &&& (2 ^ 64 - 2 ^ k) = 2 ^ k * (x / 2 ^ k) := by
  apply Nat.eq_of_testBit_eq
  intro i
  rw [Nat.testBit_and]
  have hmask : (2 : Nat) ^ 64 - 2 ^ k = (2 ^ (64 - k) - 1) <<< k := by
    rw [Nat.shiftLeft_eq, Nat.sub_mul, one_mul, ← Nat.pow_add]
    congr 2
    omega
  have hrhs : 2 ^ k * (x / 2 ^ k) = (x >>> k) <<< k := by
    rw [Nat.shiftRight_eq_div_pow, Nat.shiftLeft_eq, Nat.mul_comm]
  rw [hmask, hrhs, Nat.testBit_shiftLeft, Nat.testBit_shiftLeft]
  by_cases hki : k ≤ i
  · simp only [hki, decide_True, Bool.true_and]
    rw [Nat.testBit_shiftRight]
    have hik : k + (i - k) = i := by omega
    rw [hik, Nat.testBit_two_pow_sub_one]
    by_cases hi64 : i < 64
    · simp [show i - k < 64 - k by omega]
    · have hxb : x.testBit i = false :=
        Nat.testBit_lt_two_pow
          (lt_of_lt_of_le hx (Nat.pow_le_pow_right (by norm_num) (by omega)))
      simp [hxb, show ¬(i - k < 64 - k) by omega]
  · simp [hki]

/-- align_size_up at a power-of-two alignment yields a multiple of the
alignment. -/
theorem align_size_up_pow2 (s k : Nat) (hk : k ≤ 64)
    (hs : s + (2 ^ k - 1) < 2 ^ 64) :
    align_size_up s (2 ^ k) % 2 ^ k = 0 := by
  unfold align_size_up
  rw [and_two_pow_complement k _ hk hs]
  exact Nat.mul_mod_right _ _

/-- C7: a DataPatch with inlined = false and power-of-two alignment a writes
the constant at a section offset that is a multiple of a (after the guarantee
that a does not exceed the section's base alignment), and the patched 32-bit
displacement added back to the next-instruction address resolves exactly to
the written constant's location. -/
theorem site_DataPatch_align_round_trip
    (cs : ConstantsSection) (ni : Nat) (p : DataPatchInput) (k : Nat)
    (cs' : ConstantsSection) (evs : List Event)
    (hinl : p.inlined = false)
    (hkind : p.kindChar = 'f' ∨ p.kindChar = 'j' ∨ p.kindChar = 'd')
    (halign : p.alignment = 2 ^ k) (hk : k ≤ 64)
    (hs : cs.size + (p.alignment - 1) < 2 ^ 64)
    (h : site_DataPatch cs ni p = .ok (cs', evs)) :
    ∃ off disp,
      evs = [.write_constant off p.primitive, .patch_disp32 disp,
             .relocate (.section_word off)] ∧
      off % p.alignment = 0 ∧
      (ni : Int) + disp = (cs.start : Int) + (off : Int) ∧
      cs'.size = off + BytesPerLong := by
  unfold site_DataPatch at h
  have hpos : p.alignment > 0 := by rw [halign]; positivity
  rcases hkind with hc | hc | hc
  all_goals rw [hc] at h
  all_goals rw [if_neg (by decide), if_pos (by decide), hinl] at h
  all_goals rw [if_neg (by simp), if_pos hpos] at h
  all_goals
    split at h
  all_goals try (simp at h; done)
  all_goals rename_i size heq
  all_goals
    split at heq
  all_goals try (simp at heq; done)
  all_goals rename_i hle
  all_goals cases heq
  all_goals dsimp only at h
  all_goals split at h
  all_goals try (simp at h; done)
  all_goals cases h
  all_goals
    refine ⟨align_size_up cs.size p.alignment,
      (((cs.start + align_size_up cs.size p.alignment : Nat) : Int) - (ni : Int)),
      rfl, ?_, by push_cast; ring, rfl⟩
  all_goals rw [halign] at hs ⊢
  all_goals exact align_size_up_pow2 _ _ hk hs

/-- Witness for C7: a DataPatch of a long constant with alignment 8 into a
section currently at size 4 writes at offset 8, and the displacement 908 from
next-instruction address 100 resolves to section start 1000 plus offset 8. -/
theorem site_DataPatch_align_round_trip_witness :
    ∃ off disp,
      ([Event.write_constant 8 77, Event.patch_disp32 908,
        Event.relocate (.section_word 8)] : List Event) =
        [Event.write_constant off 77, Event.patch_disp32 disp,
         Event.relocate (.section_word off)] ∧
      off % 8 = 0 ∧
      ((100 : Nat) : Int) + disp = ((1000 : Nat) : Int) + (off : Int) ∧
      (16 : Nat) = off + BytesPerLong := by
  have h := site_DataPatch_align_round_trip ⟨1000, 4, 8⟩ 100 ⟨'j', 77, none, 8, false⟩ 3
    ⟨1000, 16, 8⟩ [.write_constant 8 77, .patch_disp32 908, .relocate (.section_word 8)]
    rfl (by decide) rfl (by decide) (by decide) (by decide)
  obtain ⟨off, disp, hev, hmod, hrt, hsz⟩ := h
  exact ⟨off, disp, hev, hmod, hrt, hsz⟩

/-- C2: in the scope-recording value loop, a wide value (one whose translation
produces a second slot) contributes exactly two scope-values (second slot then
primary), processing can only succeed when the immediately following producer
value is the IllegalValue placeholder, and the loop index skips that
placeholder so the remaining values are processed from index i + 2 with
nothing extra appended for the placeholder.  Both the locals region and the
expression-stack region behave this way. -/
theorem wide_value_illegal_skip :
    (∀ (vtab : List VirtualObjectDesc) (tfs fuel lc ec i : Nat) (v : GValue)
       (rest : List GValue) (objects objects1 : List ObjectValue)
       (first s2 : ScopeVal)
       (res : List ObjectValue × List ScopeVal × List ScopeVal × List MonitorVal),
       i < lc →
       get_hotspot_value vtab tfs fuel objects v = .ok (objects1, first, some s2) →
       record_scope_values vtab tfs fuel lc ec i (v :: rest) objects = .ok res →
       ∃ rest2 o ls es ms,
         rest = .illegal :: rest2 ∧
         record_scope_values vtab tfs fuel lc ec (i + 2) rest2 objects1 =
           .ok (o, ls, es, ms) ∧
         res = (o, s2 :: first :: ls, es, ms))
    ∧ (∀ (vtab : List VirtualObjectDesc) (tfs fuel lc ec i : Nat) (v : GValue)
         (rest : List GValue) (objects objects1 : List ObjectValue)
         (first s2 : ScopeVal)
         (res : List ObjectValue × List ScopeVal × List ScopeVal × List MonitorVal),
         lc ≤ i → i < lc + ec →
         get_hotspot_value vtab tfs fuel objects v = .ok (objects1, first, some s2) →
         record_scope_values vtab tfs fuel lc ec i (v :: rest) objects = .ok res →
         ∃ rest2 o ls es ms,
           rest = .illegal :: rest2 ∧
           record_scope_values vtab tfs fuel lc ec (i + 2) rest2 objects1 =
             .ok (o, ls, es, ms) ∧
           res = (o, ls, s2 :: first :: es, ms)) := by
  constructor
  · intro vtab tfs fuel lc ec i v rest objects objects1 first s2 res hi htr hres
    unfold record_scope_values at hres
    rw [if_pos hi, htr] at hres
    dsimp only at hres
    cases rest with
    | nil => simp at hres
    | cons w rest2 =>
      cases w
      case illegal =>
        dsimp only at hres
        cases hrec : record_scope_values vtab tfs fuel lc ec (i + 2) rest2 objects1 with
        | ok q =>
          obtain ⟨o, ls, es, ms⟩ := q
          rw [hrec] at hres
          cases hres
          exact ⟨rest2, o, ls, es, ms, rfl, hrec, rfl⟩
        | fatal => rw [hrec] at hres; simp at hres
        | outOfFuel => rw [hrec] at hres; simp at hres
      all_goals simp at hres
  · intro vtab tfs fuel lc ec i v rest objects objects1 first s2 res hle hi htr hres
    unfold record_scope_values at hres
    rw [if_neg (Nat.not_lt.mpr hle), if_pos hi, htr] at hres
    dsimp only at hres
    cases rest with
    | nil => simp at hres
    | cons w rest2 =>
      cases w
      case illegal =>
        dsimp only at hres
        cases hrec : record_scope_values vtab tfs fuel lc ec (i + 2) rest2 objects1 with
        | ok q =>
          obtain ⟨o, ls, es, ms⟩ := q
          rw [hrec] at hres
          cases hres
          exact ⟨rest2, o, ls, es, ms, rfl, hrec, rfl⟩
        | fatal => rw [hrec] at hres; simp at hres
        | outOfFuel => rw [hrec] at hres; simp at hres
      all_goals simp at hres

/-- Witness for C2: the scenario of a value list RegisterValue(r0, long),
Illegal, StackSlot(0, int) with numLocals 2, numStack 1, numLocks 0 gives the
locals two scope-values (second slot plus primary) and skips the consumed
Illegal slot, which is not treated as a third local. -/
theorem wide_value_illegal_skip_witness :
    ∃ rest2 o ls es ms,
      ([GValue.illegal, GValue.stack_slot 0 false .t_int] : List GValue) =
        .illegal :: rest2 ∧
      record_scope_values [] 16 1 2 1 2 rest2 [] = .ok (o, ls, es, ms) ∧
      (([], [ScopeVal.loc (.reg_loc .lng 0), ScopeVal.loc (.reg_loc .lng 0)],
        [ScopeVal.loc (.stk_loc .normal 0)], []) :
          List ObjectValue × List ScopeVal × List ScopeVal × List MonitorVal) =
        (o, ScopeVal.loc (.reg_loc .lng 0) :: ScopeVal.loc (.reg_loc .lng 0) :: ls,
         es, ms) :=
  wide_value_illegal_skip.1 [] 16 1 2 1 0 (.register_value 0 .t_long)
    [.illegal, .stack_slot 0 false .t_int] [] []
    (.loc (.reg_loc .lng 0)) (.loc (.reg_loc .lng 0))
    ([], [.loc (.reg_loc .lng 0), .loc (.reg_loc .lng 0)],
     [.loc (.stk_loc .normal 0)], [])
    (by decide) (by decide) (by decide)

/-- updateFieldValues leaves a prefix without the target id untouched. -/
theorem updateFieldValues_append_of_absent (a b : List ObjectValue) (id : Int)
    (fs : List ScopeVal) (h : ∀ o ∈ a, ¬o.oid = id) :
    updateFieldValues (a ++ b) id fs = a ++ updateFieldValues b id fs := by
  unfold updateFieldValues
  rw [List.map_append]
  congr 1
  calc a.map (fun o => if o.oid = id then { o with field_values := fs } else o)
      = a.map (fun o => o) := List.map_congr_left (fun o ho => by
        simp only [if_neg (h o ho)])
    _ = a := by simp

/-- A successful translation only appends to the seen-objects pool: the
result pool extends the input pool. -/
theorem get_hotspot_value_extends :
    ∀ (fuel : Nat) (vtab : List VirtualObjectDesc) (tfs : Nat),
      (∀ (objects : List ObjectValue) (v : GValue)
         (r : List ObjectValue × ScopeVal × Option ScopeVal),
         get_hotspot_value vtab tfs fuel objects v = .ok r →
         ∃ ext, r.1 = objects ++ ext)
      ∧ (∀ (objects : List ObjectValue) (b : Bool) (vs : List GValue)
           (r : List ObjectValue × List ScopeVal),
           get_hotspot_values vtab tfs fuel objects b vs = .ok r →
           ∃ ext, r.1 = objects ++ ext) := by
  intro fuel
  induction fuel with
  | zero =>
    intro vtab tfs
    constructor
    · intro objects v r h
      simp [get_hotspot_value] at h
    · intro objects b vs r h
      simp [get_hotspot_values] at h
  | succ n ih =>
    intro vtab tfs
    obtain ⟨ihv, ihl⟩ := ih vtab tfs
    constructor
    · intro objects v r h
      cases v with
      | illegal =>
        cases h
        exact ⟨[], by simp⟩
      | register_value number kind =>
        unfold get_hotspot_value at h
        repeat' split at h
        all_goals first
          | (simp at h; done)
          | (cases h; exact ⟨[], by simp⟩)
      | stack_slot offset addFrameSize kind =>
        cases h
        exact ⟨[], by simp⟩
      | constant kind prim objectH =>
        unfold get_hotspot_value at h
        repeat' split at h
        all_goals first
          | (simp at h; done)
          | (cases h; exact ⟨[], by simp⟩)
      | monitor_value owner lockData eliminated =>
        simp [get_hotspot_value] at h
      | virtual_object id =>
        unfold get_hotspot_value at h
        cases hfo : objects.find? (fun o => o.oid = id) with
        | some o =>
          rw [hfo] at h
          cases h
          exact ⟨[], by simp⟩
        | none =>
          rw [hfo] at h
          cases hfv : vtab.find? (fun d => d.vid = id) with
          | none => rw [hfv] at h; simp at h
          | some d =>
            rw [hfv] at h
            dsimp only at h
            cases hrec : get_hotspot_values vtab tfs n
                (objects ++ [⟨id, some d.mirror, []⟩]) d.isLongArray d.fieldValues with
            | ok q =>
              obtain ⟨o2, fs⟩ := q
              rw [hrec] at h
              cases h
              obtain ⟨ext2, hext2⟩ := ihl _ _ _ _ hrec
              simp only at hext2
              have habs : ∀ o ∈ objects, ¬o.oid = id := by
                intro o ho
                have := List.find?_eq_none.mp hfo o ho
                simpa using this
              refine ⟨updateFieldValues ([⟨id, some d.mirror, []⟩] ++ ext2) id fs, ?_⟩
              simp only
              rw [hext2, List.append_assoc]
              exact updateFieldValues_append_of_absent _ _ _ _ habs
            | fatal => rw [hrec] at h; simp at h
            | outOfFuel => rw [hrec] at h; simp at h
    · intro objects b vs r h
      cases vs with
      | nil =>
        cases h
        exact ⟨[], by simp⟩
      | cons v vs2 =>
        unfold get_hotspot_values at h
        cases hv : get_hotspot_value vtab tfs n objects v with
        | ok p =>
          obtain ⟨o1, val, snd⟩ := p
          rw [hv] at h
          dsimp only at h
          cases hrec : get_hotspot_values vtab tfs n o1 b vs2 with
          | ok q =>
            obtain ⟨o2, svs⟩ := q
            rw [hrec] at h
            cases h
            obtain ⟨e1, he1⟩ := ihv _ _ _ hv
            obtain ⟨e2, he2⟩ := ihl _ _ _ _ hrec
            simp only at he1 he2
            refine ⟨e1 ++ e2, ?_⟩
            simp only
            rw [he2, he1, List.append_assoc]
          | fatal => rw [hrec] at h; simp at h
          | outOfFuel => rw [hrec] at h; simp at h
        | fatal => rw [hv] at h; simp at h
        | outOfFuel => rw [hv] at h; simp at h

/-- unseenWeight as a head-plus-tail sum. -/
theorem unseenWeight_cons (e : VirtualObjectDesc) (t : List VirtualObjectDesc)
    (objects : List ObjectValue) :
    unseenWeight (e :: t) objects =
      (if (objects.find? (fun o => o.oid = e.vid)).isNone
       then 2 + e.fieldValues.length else 0) + unseenWeight t objects := by
  simp [unseenWeight]

/-- Growing the pool never increases the unseen weight. -/
theorem unseenWeight_append_le (vtab : List VirtualObjectDesc)
    (objects ext : List ObjectValue) :
    unseenWeight vtab (objects ++ ext) ≤ unseenWeight vtab objects := by
  unfold unseenWeight
  apply List.sum_le_sum
  intro d _
  cases hfo : objects.find? (fun o => o.oid = d.vid) with
  | some a =>
    have hap : (objects ++ ext).find? (fun o => o.oid = d.vid) = some a := by
      rw [List.find?_append, hfo]
      rfl
    simp [hap, hfo]
  | none =>
    simp only [hfo, Option.isNone_none, if_pos]
    split <;> omega

/-- Registering the stub object for an unseen id removes the id's full weight
from the unseen measure. -/
theorem unseenWeight_register (vtab : List VirtualObjectDesc)
    (objects : List ObjectValue) (id : Int) (d : VirtualObjectDesc)
    (sv : ObjectValue)
    (hfind : vtab.find? (fun d2 => d2.vid = id) = some d)
    (hnone : objects.find? (fun o => o.oid = id) = none)
    (hsv : sv.oid = id) :
    unseenWeight vtab (objects ++ [sv]) + (2 + d.fieldValues.length) ≤
      unseenWeight vtab objects := by
  induction vtab with
  | nil => simp at hfind
  | cons e t ih =>
    rw [List.find?_cons] at hfind
    by_cases he : e.vid = id
    · have hd : e = d := by
        simp only [he, decide_True] at hfind
        · exact Option.some.inj hfind
      subst hd
      have h1 : unseenWeight (e :: t) objects =
          (2 + e.fieldValues.length) + unseenWeight t objects := by
        rw [unseenWeight_cons]
        rw [he, hnone]
        simp
      have h2 : unseenWeight (e :: t) (objects ++ [sv]) =
          unseenWeight t (objects ++ [sv]) := by
        rw [unseenWeight_cons, he]
        have hfsv : (objects ++ [sv]).find? (fun o => o.oid = id) = some sv := by
          rw [List.find?_append, hnone]
          simp [List.find?_cons, hsv]
        rw [hfsv]
        simp
      have h3 := unseenWeight_append_le t objects [sv]
      omega
    · have hfind' : t.find? (fun d2 => d2.vid = id) = some d := by
        simpa [he] using hfind
      have ih2 := ih hfind'
      have hhead : (if ((objects ++ [sv]).find? (fun o => o.oid = e.vid)).isNone
            then 2 + e.fieldValues.length else 0) ≤
          (if (objects.find? (fun o => o.oid = e.vid)).isNone
            then 2 + e.fieldValues.length else 0) := by
        cases hfo : objects.find? (fun o => o.oid = e.vid) with
        | some a =>
          have hap : (objects ++ [sv]).find? (fun o => o.oid = e.vid) = some a := by
            rw [List.find?_append, hfo]
            rfl
          simp [hap]
        | none =>
          split <;> simp
      rw [unseenWeight_cons, unseenWeight_cons]
      omega

/-- Fuel sufficiency: with fuel exceeding the unseen weight (plus the pending
list length for the field loop), translation never runs out of fuel — in
particular it terminates on self-referential virtual-object graphs, because
each unseen id is registered in the pool before its fields are translated and
is therefore never expanded twice. -/
theorem get_hotspot_value_fuel_sufficient :
    ∀ (fuel : Nat) (vtab : List VirtualObjectDesc) (tfs : Nat),
      (∀ (objects : List ObjectValue) (v : GValue),
         unseenWeight vtab objects + 1 < fuel →
         get_hotspot_value vtab tfs fuel objects v ≠ .outOfFuel)
      ∧ (∀ (objects : List ObjectValue) (b : Bool) (vs : List GValue),
           unseenWeight vtab objects + vs.length + 1 < fuel →
           get_hotspot_values vtab tfs fuel objects b vs ≠ .outOfFuel) := by
  intro fuel
  induction fuel with
  | zero =>
    intro vtab tfs
    constructor
    · intro objects v hf
      omega
    · intro objects b vs hf
      omega
  | succ n ih =>
    intro vtab tfs
    obtain ⟨ihv, ihl⟩ := ih vtab tfs
    constructor
    · intro objects v hf
      cases v with
      | illegal => simp [get_hotspot_value]
      | register_value number kind =>
        unfold get_hotspot_value
        repeat' split
        all_goals simp
      | stack_slot offset addFrameSize kind => simp [get_hotspot_value]
      | constant kind prim objectH =>
        unfold get_hotspot_value
        repeat' split
        all_goals simp
      | monitor_value owner lockData eliminated => simp [get_hotspot_value]
      | virtual_object id =>
        unfold get_hotspot_value
        cases hfo : objects.find? (fun o => o.oid = id) with
        | some o => simp
        | none =>
          cases hfv : vtab.find? (fun d => d.vid = id) with
          | none => simp
          | some d =>
            dsimp only
            have hdec := unseenWeight_register vtab objects id d
              ⟨id, some d.mirror, []⟩ hfv hfo rfl
            have hne := ihl (objects ++ [⟨id, some d.mirror, []⟩])
              d.isLongArray d.fieldValues (by omega)
            cases hrec : get_hotspot_values vtab tfs n
                (objects ++ [⟨id, some d.mirror, []⟩]) d.isLongArray d.fieldValues with
            | ok q =>
              obtain ⟨o2, fs⟩ := q
              simp [hrec]
            | fatal => simp [hrec]
            | outOfFuel => exact absurd hrec hne
    · intro objects b vs hf
      cases vs with
      | nil => simp [get_hotspot_values]
      | cons v vs2 =>
        have hf2 : unseenWeight vtab objects + vs2.length + 2 < n + 1 := by
          simp only [List.length_cons] at hf
          omega
        unfold get_hotspot_values
        have hv := ihv objects v (by omega)
        cases hres : get_hotspot_value vtab tfs n objects v with
        | ok p =>
          obtain ⟨o1, val, snd⟩ := p
          dsimp only
          obtain ⟨e1, he1⟩ := (get_hotspot_value_extends n vtab tfs).1 objects v _ hres
          simp only at he1
          have hmono := unseenWeight_append_le vtab objects e1
          have hvs := ihl o1 b vs2 (by rw [he1]; omega)
          cases hrec : get_hotspot_values vtab tfs n o1 b vs2 with
          | ok q => simp [hrec]
          | fatal => simp [hrec]
          | outOfFuel => exact absurd hrec hvs
        | fatal => simp
        | outOfFuel => exact absurd hres hv

/-- After a successful translation of a virtual-object id, the pool holds an
entry for that id, and the returned scope value is the by-id reference with no
second slot. -/
theorem get_hotspot_value_virtual_ok (vtab : List VirtualObjectDesc)
    (tfs fuel : Nat) (objects pool1 : List ObjectValue) (id : Int)
    (sv : ScopeVal) (snd : Option ScopeVal)
    (h : get_hotspot_value vtab tfs fuel objects (.virtual_object id) =
      .ok (pool1, sv, snd)) :
    sv = .objRef id ∧ snd = none ∧
    ∃ o, pool1.find? (fun o => o.oid = id) = some o := by
  cases fuel with
  | zero => simp [get_hotspot_value] at h
  | succ n =>
    unfold get_hotspot_value at h
    cases hfo : objects.find? (fun o => o.oid = id) with
    | some o =>
      rw [hfo] at h
      cases h
      have hooid : o.oid = id := by simpa using List.find?_some hfo
      exact ⟨by rw [hooid], rfl, ⟨o, hfo⟩⟩
    | none =>
      rw [hfo] at h
      cases hfv : vtab.find? (fun d => d.vid = id) with
      | none => rw [hfv] at h; simp at h
      | some d =>
        rw [hfv] at h
        dsimp only at h
        cases hrec : get_hotspot_values vtab tfs n
            (objects ++ [⟨id, some d.mirror, []⟩]) d.isLongArray d.fieldValues with
        | ok q =>
          obtain ⟨o2, fs⟩ := q
          rw [hrec] at h
          cases h
          refine ⟨rfl, rfl, ?_⟩
          obtain ⟨ext2, hext2⟩ := (get_hotspot_value_extends n vtab tfs).2 _ _ _ _ hrec
          simp only at hext2
          have hmem : (⟨id, some d.mirror, []⟩ : ObjectValue) ∈ o2 := by
            rw [hext2]
            simp
          have hmem2 : (⟨id, some d.mirror, fs⟩ : ObjectValue) ∈
              updateFieldValues o2 id fs := by
            unfold updateFieldValues
            have := List.mem_map_of_mem
              (fun o => if o.oid = id then { o with field_values := fs } else o) hmem
            simpa using this
          have hsome : ((updateFieldValues o2 id fs).find?
              (fun o => o.oid = id)).isSome :=
            List.find?_isSome.mpr ⟨_, hmem2, by simp⟩
          obtain ⟨o, ho⟩ := Option.isSome_iff_exists.mp hsome
          exact ⟨o, ho⟩
        | fatal => rw [hrec] at h; simp at h
        | outOfFuel => rw [hrec] at h; simp at h

/-- When the pool already holds an entry for the id, translation is a pure
memo hit: it returns the pooled reference and leaves the pool unchanged. -/
theorem get_hotspot_value_virtual_hit (vtab : List VirtualObjectDesc)
    (tfs g : Nat) (pool : List ObjectValue) (id : Int) (o : ObjectValue)
    (hfo : pool.find? (fun o => o.oid = id) = some o) :
    get_hotspot_value vtab tfs (g + 1) pool (.virtual_object id) =
      .ok (pool, .objRef id, none) := by
  have hid : o.oid = id := by simpa using List.find?_some hfo
  unfold get_hotspot_value
  rw [hfo]
  dsimp only
  rw [hid]

/-- C3: a virtual-object id already translated within one scope-recording
pass is translated to the identical pooled object scope-value, with the pool
unchanged, so each id is translated exactly once per installation; and because
the new object is registered in the seen-objects pool before its field values
are recursively translated, translation of self-referential virtual-object
graphs terminates — fuel exceeding the unseen weight is never exhausted. -/
theorem virtual_object_memoized_and_terminates :
    (∀ (vtab : List VirtualObjectDesc) (tfs fuel : Nat)
       (objects pool1 : List ObjectValue) (id : Int) (sv : ScopeVal)
       (snd : Option ScopeVal),
       get_hotspot_value vtab tfs fuel objects (.virtual_object id) =
         .ok (pool1, sv, snd) →
       sv = .objRef id ∧ snd = none ∧
       ∀ fuel2 : Nat,
         get_hotspot_value vtab tfs (fuel2 + 1) pool1 (.virtual_object id) =
           .ok (pool1, .objRef id, none))
    ∧ (∀ (vtab : List VirtualObjectDesc) (tfs fuel : Nat)
         (objects : List ObjectValue) (v : GValue),
         unseenWeight vtab objects + 1 < fuel →
         get_hotspot_value vtab tfs fuel objects v ≠ .outOfFuel) := by
  constructor
  · intro vtab tfs fuel objects pool1 id sv snd h
    obtain ⟨hsv, hsnd, o, ho⟩ := get_hotspot_value_virtual_ok _ _ _ _ _ _ _ _ h
    exact ⟨hsv, hsnd, fun fuel2 =>
      get_hotspot_value_virtual_hit vtab tfs fuel2 pool1 id o ho⟩
  · intro vtab tfs fuel objects v hf
    exact (get_hotspot_value_fuel_sufficient fuel vtab tfs).1 objects v hf

/-- Witness for C3: a self-referential virtual object (id 0 whose only field
refers to itself) translates without exhausting fuel, producing a pool entry
whose field is the by-id reference to itself, and a second translation from
that pool is a pure memo hit returning the identical reference with the pool
unchanged. -/
theorem virtual_object_memoized_and_terminates_witness :
    get_hotspot_value [⟨0, 7, false, [.virtual_object 0]⟩] 16 10
        [⟨0, some 7, [.objRef 0]⟩] (.virtual_object 0) =
      .ok ([⟨0, some 7, [.objRef 0]⟩], .objRef 0, none) ∧
    get_hotspot_value [⟨0, 7, false, [.virtual_object 0]⟩] 16 10 []
        (.virtual_object 0) ≠ .outOfFuel :=
  ⟨(virtual_object_memoized_and_terminates.1 [⟨0, 7, false, [.virtual_object 0]⟩]
      16 10 [] [⟨0, some 7, [.objRef 0]⟩] 0 (.objRef 0) none (by decide)).2.2 9,
   virtual_object_memoized_and_terminates.2 [⟨0, 7, false, [.virtual_object 0]⟩]
      16 10 [] (.virtual_object 0) (by decide)⟩
